import Mathlib

/-!
# Debounced button reader (`button.h`)

A shallow embedding of the `Button` class of `button.h` and the properties of
its polling methods `read()` and `pressedTime()`.

Modelling conventions.

* Time is counted in microseconds, the resolution of `Timer::elapsed_time()`.
  The timer of a `Button` is started by the constructor and never stopped, so
  its only state is the number of microseconds since the last `reset()`.
  The 64-bit range of the microsecond counter (about 292 000 years) is not
  modelled: durations are natural numbers.
* A method call is instantaneous: the timer reading and the `reset()` of one
  call happen at the same instant, and the pin shows one level `raw` for the
  whole call (the source evaluates `in` up to twice per call).
* Between two calls the environment lets `dt` microseconds pass
  (`Button.advance`) and chooses the level the next call sees.
-/

namespace ButtonMbed

/-! ## Collaborators from the HAL -/

/-- Modelled from the spec: the pull-mode enumeration `PinMode` of the HAL
(declared in `mbed.h`, not in this repository): pull-up, pull-down, no-pull,
open-drain. -/
inductive PinMode where
  | PullUp
  | PullDown
  | PullNone
  | OpenDrain
  deriving DecidableEq, Repr

/-- Modelled from the spec: the pin identifier `PinName` of the HAL, an opaque
integer-valued enumeration declared in `mbed.h`. -/
abbrev PinName := Int

/-- Modelled from the spec: the no-connect placeholder `NC` of the HAL
(`(int)0xFFFFFFFF`). -/
def NC : PinName := -1

/-- The `DigitalIn` handle owned by a `Button`: the pin it was opened on and
its current pull mode. The electrical level is supplied by the environment at
each call. -/
structure DigitalIn where
  pin : PinName
  mode : PinMode
  deriving DecidableEq, Repr

/-- The call `DigitalIn::mode(PinMode)`: reconfigure the pull mode. -/
def DigitalIn.setMode (d : DigitalIn) (m : PinMode) : DigitalIn :=
  { d with mode := m }

/-- Modelled from the spec: `DigitalIn::is_connected()` of the HAL, non-zero if
the pin is a real GPIO and 0 if the object was initialised with `NC`
(doc comment of `Button::is_connected`, button.h lines 94-99). -/
def DigitalIn.is_connected (d : DigitalIn) : Int :=
  if d.pin = NC then 0 else 1

/-- The running `Timer` of a `Button`: microseconds since the last reset. -/
structure Timer where
  us : Nat
  deriving DecidableEq, Repr

/-- The reading `Timer::elapsed_time()`, in microseconds. -/
def Timer.elapsed_time (t : Timer) : Nat := t.us

/-- The call `Timer::reset()`: the elapsed time restarts from zero. -/
def Timer.reset (_t : Timer) : Timer := { us := 0 }

/-- The environment: `dt` microseconds pass on the running timer. -/
def Timer.advance (t : Timer) (dt : Nat) : Timer := { us := t.us + dt }

/-- The expression `duration_cast<milliseconds>(d).count()` for a duration `d`
of `us` microseconds: whole milliseconds, as a `long long`. -/
def milliseconds_count (us : Nat) : Int := ((us / 1000 : Nat) : Int)

/-! ## The class `Button` -/

/-- The private members of `Button` (button.h lines 29-31): the input handle
`in`, the debounced `state`, and the timer `tim`. -/
structure Button where
  in_ : DigitalIn
  state : Bool
  tim : Timer
  deriving DecidableEq, Repr

/-- The constructor `Button(PinName pin, PinMode mode)` (button.h lines 39-41):
opens the input, `state` starts at 0, and `tim.start()` begins counting from
zero. -/
def Button.new (pin : PinName) (mode : PinMode) : Button :=
  { in_ := { pin := pin, mode := mode }, state := false, tim := { us := 0 } }

/-- The method `Button::mode` (button.h lines 42-44). -/
def Button.mode (b : Button) (m : PinMode) : Button :=
  { b with in_ := b.in_.setMode m }

/-- The method `Button::read` (button.h lines 52-64), polled while the pin
shows level `raw`. Returns the result and the button after the call. -/
def Button.read (b : Button) (raw : Bool) : Bool × Button :=
  let elapsed : Int := milliseconds_count b.tim.elapsed_time
  if raw && !b.state && decide (elapsed > 30) then
    (true, { b with state := true, tim := b.tim.reset })
  else if !raw && b.state && decide (elapsed > 30) then
    (false, { b with state := false, tim := b.tim.reset })
  else
    (false, b)

/-- The method `Button::pressedTime` (button.h lines 80-92), polled while the
pin shows level `raw`. Returns the result and the button after the call. -/
def Button.pressedTime (b : Button) (raw : Bool) : Int × Button :=
  if raw && !b.state then
    (0, { b with state := true, tim := b.tim.reset })
  else if !raw && b.state then
    let elapsed : Int := milliseconds_count b.tim.elapsed_time
    (elapsed, { b with state := false, tim := b.tim.reset })
  else
    (0, b)

/-- The method `Button::is_connected` (button.h lines 100-103). -/
def Button.is_connected (b : Button) : Int × Button :=
  (b.in_.is_connected, b)

/-- The conversion `Button::operator int` (button.h lines 113-115): the
`bool` returned by `read()` converted to `int`. -/
def Button.operator_int (b : Button) (raw : Bool) : Int × Button :=
  let r := b.read raw
  (if r.1 then 1 else 0, r.2)

/-- The environment: `dt` microseconds pass between two calls. -/
def Button.advance (b : Button) (dt : Nat) : Button :=
  { b with tim := b.tim.advance dt }

/-- Whole milliseconds the timer of `b` shows, as `read` and `pressedTime`
compute it. -/
def Button.elapsed_ms (b : Button) : Int := milliseconds_count b.tim.elapsed_time

/-! ## Sequences of calls -/

/-- The public methods a caller can invoke on a `Button`. -/
inductive Call where
  | read
  | pressedTime
  | mode (m : PinMode)
  | is_connected
  deriving DecidableEq, Repr

/-- The value a call returns: the `bool` of `read`, the `long long` of
`pressedTime`, the `int` of `is_connected`, nothing for `mode`. -/
inductive Ret where
  | bool (v : Bool)
  | long (v : Int)
  | int (v : Int)
  | void
  deriving DecidableEq, Repr

/-- One call made on the button: `dt` microseconds after the previous call (or
after the start of the observation, for the first one), while the pin shows
level `raw`. -/
structure Event where
  dt : Nat
  raw : Bool
  call : Call
  deriving DecidableEq, Repr

/-- One poll of a fixed method: the time since the previous poll and the level
the poll sees. -/
structure Poll where
  dt : Nat
  raw : Bool
  deriving DecidableEq, Repr

/-- Dispatch of a call to the method it names. -/
def Button.call (b : Button) (c : Call) (raw : Bool) : Ret × Button :=
  match c with
  | Call.read => (Ret.bool (b.read raw).1, (b.read raw).2)
  | Call.pressedTime => (Ret.long (b.pressedTime raw).1, (b.pressedTime raw).2)
  | Call.mode m => (Ret.void, b.mode m)
  | Call.is_connected => (Ret.int b.is_connected.1, b.is_connected.2)

/-- The button after the first `n` calls of the sequence `ev`. -/
def after (b : Button) (ev : ℕ → Event) : ℕ → Button
  | 0 => b
  | n + 1 => (((after b ev n).advance (ev n).dt).call (ev n).call (ev n).raw).2

/-- The button as call number `n` finds it: after the earlier calls and the
wait `dt` that precedes call `n`. -/
def atCall (b : Button) (ev : ℕ → Event) (n : ℕ) : Button :=
  (after b ev n).advance (ev n).dt

/-- What call number `n` of the sequence returns. -/
def ret (b : Button) (ev : ℕ → Event) (n : ℕ) : Ret :=
  ((atCall b ev n).call (ev n).call (ev n).raw).1

/-- The instant of call number `n`, in microseconds since the start of the
observation: the timer is monotonic, every wait `dt` is non-negative. -/
def callTime (ev : ℕ → Event) : ℕ → ℕ
  | 0 => (ev 0).dt
  | n + 1 => callTime ev n + (ev (n + 1)).dt

/-- A sequence of `read()` polls. -/
def reads (p : ℕ → Poll) (n : ℕ) : Event :=
  { dt := (p n).dt, raw := (p n).raw, call := Call.read }

/-- A sequence of `pressedTime()` polls. -/
def pressedTimes (p : ℕ → Poll) (n : ℕ) : Event :=
  { dt := (p n).dt, raw := (p n).raw, call := Call.pressedTime }

/-- Poll `k` of a sequence of `read()` polls accepts a falling edge: the raw
input is not asserted, the state is down and more than 30 ms have elapsed. -/
def acceptsFalling (b : Button) (p : ℕ → Poll) (k : ℕ) : Prop :=
  (p k).raw = false ∧ (atCall b (reads p) k).state = true ∧
    (atCall b (reads p) k).elapsed_ms > 30

/-! ## Concrete scenarios -/

/-- An interleaving of calls: a `read()` that reports a press, a
`pressedTime()` that observes the release 1 ms later, and a `read()` 31 ms
after that, with the input asserted again. -/
def interleaved : ℕ → Event
  | 0 => { dt := 40000, raw := true, call := Call.read }
  | 1 => { dt := 1000, raw := false, call := Call.pressedTime }
  | _ => { dt := 31000, raw := true, call := Call.read }

/-- A bounce on an idle button: polled every 5 ms, the input is low at 40 ms,
high at 45 ms and 50 ms, and low again from 55 ms on. -/
def bounce : ℕ → Poll
  | 0 => { dt := 40000, raw := false }
  | 1 => { dt := 5000, raw := true }
  | 2 => { dt := 5000, raw := true }
  | _ => { dt := 5000, raw := false }

/-- A bounce inside the 30 ms that follow construction: polled every 5 ms, the
input is high at 5 ms and 10 ms, then low. -/
def earlyBounce : ℕ → Poll
  | 0 => { dt := 5000, raw := true }
  | 1 => { dt := 5000, raw := true }
  | _ => { dt := 5000, raw := false }

/-- The 50 ms press: polled every 5 ms, the input is low for the first `n1`
polls, asserted for the next 10 polls (50 ms), then low for ever. -/
def pressScenario (n1 : ℕ) (k : ℕ) : Poll :=
  { dt := 5000, raw := decide (n1 ≤ k ∧ k < n1 + 10) }

/-- A press shorter than a millisecond, polled with `pressedTime()`: the input
is asserted at the first poll and released 500 microseconds later. -/
def shortPress : ℕ → Poll
  | 0 => { dt := 1000, raw := true }
  | 1 => { dt := 500, raw := false }
  | _ => { dt := 5000, raw := false }

/-- A press held 200 ms, polled with `pressedTime()` every 50 ms: low at the
first poll, asserted at the next four, released from the sixth poll on. -/
def heldPress (k : ℕ) : Poll :=
  { dt := 50000, raw := decide (1 ≤ k ∧ k < 5) }

/-- The method `Button::read` (button.h lines 52-64) with a log of its timer
calls: the third component tells whether the call executed `tim.reset()`
(lines 56 and 61). -/
def Button.read_logged (b : Button) (raw : Bool) : Bool × Button × Bool :=
  let elapsed : Int := milliseconds_count b.tim.elapsed_time
  if raw && !b.state && decide (elapsed > 30) then
    (true, { b with state := true, tim := b.tim.reset }, true)
  else if !raw && b.state && decide (elapsed > 30) then
    (false, { b with state := false, tim := b.tim.reset }, true)
  else
    (false, b, false)

/-- The method `Button::pressedTime` (button.h lines 80-92) with a log of its
timer calls: the third component tells whether the call executed `tim.reset()`
(lines 83 and 88). -/
def Button.pressedTime_logged (b : Button) (raw : Bool) : Int × Button × Bool :=
  if raw && !b.state then
    (0, { b with state := true, tim := b.tim.reset }, true)
  else if !raw && b.state then
    let elapsed : Int := milliseconds_count b.tim.elapsed_time
    (elapsed, { b with state := false, tim := b.tim.reset }, true)
  else
    (0, b, false)

/-- A button already held at power-up: polled with `read()` every 10 ms, the
input is asserted at every poll. -/
def heldAtPowerUp (_k : ℕ) : Poll :=
  { dt := 10000, raw := true }

/-! ## Lemmas on single calls -/

theorem read_fst (b : Button) (raw : Bool) :
    (b.read raw).1 = (raw && !b.state && decide (b.elapsed_ms > 30)) := by
  unfold Button.read Button.elapsed_ms
  cases raw <;> cases b.state <;>
    by_cases h : milliseconds_count b.tim.elapsed_time > 30 <;> simp [h]

theorem read_state (b : Button) (raw : Bool) :
    (b.read raw).2.state =
      (if decide (b.elapsed_ms > 30) && (raw != b.state) then raw else b.state) := by
  unfold Button.read Button.elapsed_ms
  cases raw <;> cases hs : b.state <;>
    by_cases h : milliseconds_count b.tim.elapsed_time > 30 <;> simp [h, hs]

theorem read_tim_us (b : Button) (raw : Bool) :
    (b.read raw).2.tim.us =
      (if decide (b.elapsed_ms > 30) && (raw != b.state) then 0 else b.tim.us) := by
  unfold Button.read Button.elapsed_ms Timer.reset
  cases raw <;> cases hs : b.state <;>
    by_cases h : milliseconds_count b.tim.elapsed_time > 30 <;> simp [h]

theorem read_idle (b : Button) (raw : Bool)
    (h : raw = b.state ∨ b.elapsed_ms ≤ 30) :
    b.read raw = (false, b) := by
  unfold Button.elapsed_ms at h
  unfold Button.read
  rcases h with h | h
  · subst h
    cases b.state <;> simp
  · have h' : ¬ milliseconds_count b.tim.elapsed_time > 30 := not_lt.mpr h
    simp [h']

theorem pressedTime_state (b : Button) (raw : Bool) :
    (b.pressedTime raw).2.state = raw := by
  unfold Button.pressedTime
  cases raw <;> cases hs : b.state <;> simp [hs]

theorem pressedTime_tim_us (b : Button) (raw : Bool) :
    (b.pressedTime raw).2.tim.us = (if raw != b.state then 0 else b.tim.us) := by
  unfold Button.pressedTime Timer.reset
  cases raw <;> cases hs : b.state <;> simp

theorem pressedTime_fst (b : Button) (raw : Bool) :
    (b.pressedTime raw).1 = (if !raw && b.state then b.elapsed_ms else 0) := by
  unfold Button.pressedTime Button.elapsed_ms
  cases raw <;> cases hs : b.state <;> simp

theorem call_tim_us_le (b : Button) (c : Call) (raw : Bool) :
    (b.call c raw).2.tim.us ≤ b.tim.us := by
  cases c with
  | read => simp only [Button.call, read_tim_us]; split <;> simp
  | pressedTime => simp only [Button.call, pressedTime_tim_us]; split <;> simp
  | mode m => simp [Button.call, Button.mode]
  | is_connected => simp [Button.call, Button.is_connected]

theorem elapsed_ms_gt_iff (b : Button) : b.elapsed_ms > 30 ↔ 31000 ≤ b.tim.us := by
  unfold Button.elapsed_ms milliseconds_count Timer.elapsed_time
  omega

theorem after_succ (b : Button) (ev : ℕ → Event) (n : ℕ) :
    after b ev (n + 1) = ((atCall b ev n).call (ev n).call (ev n).raw).2 := rfl

theorem ret_reads (b : Button) (p : ℕ → Poll) (n : ℕ) :
    ret b (reads p) n = Ret.bool ((atCall b (reads p) n).read (p n).raw).1 := rfl

theorem after_succ_reads (b : Button) (p : ℕ → Poll) (n : ℕ) :
    after b (reads p) (n + 1) = ((atCall b (reads p) n).read (p n).raw).2 := rfl

theorem ret_pressedTimes (b : Button) (p : ℕ → Poll) (n : ℕ) :
    ret b (pressedTimes p) n
      = Ret.long ((atCall b (pressedTimes p) n).pressedTime (p n).raw).1 := rfl

theorem after_succ_pressedTimes (b : Button) (p : ℕ → Poll) (n : ℕ) :
    after b (pressedTimes p) (n + 1)
      = ((atCall b (pressedTimes p) n).pressedTime (p n).raw).2 := rfl

/-! ## Single calls of `read` -/

/-- C1: `read()` returns true if and only if the raw input is asserted, the
debounced state is false and more than 30 ms have elapsed since the last timer
reset; and whenever it returns true, the debounced state afterwards is true and
the timer has been reset to zero. -/
theorem read_true_iff (b : Button) (raw : Bool) :
    ((b.read raw).1 = true ↔
        (raw = true ∧ b.state = false ∧ b.elapsed_ms > 30)) ∧
      ((b.read raw).1 = true →
        (b.read raw).2.state = true ∧ (b.read raw).2.tim.elapsed_time = 0) := by
  unfold Button.read Button.elapsed_ms Timer.elapsed_time Timer.reset
  cases raw <;> cases hs : b.state <;>
    by_cases h : milliseconds_count b.tim.us > 30 <;> simp [h]

/-- C2: a poll of `read()` with the raw input not asserted, the debounced state
true and more than 30 ms elapsed returns false, sets the debounced state to
false and resets the timer to zero. -/
theorem read_falling_edge (b : Button) (raw : Bool)
    (hraw : raw = false) (hstate : b.state = true) (hel : b.elapsed_ms > 30) :
    (b.read raw).1 = false ∧ (b.read raw).2.state = false ∧
      (b.read raw).2.tim.elapsed_time = 0 ∧ (b.read raw).2.in_ = b.in_ := by
  subst hraw
  unfold Button.elapsed_ms Timer.elapsed_time at hel
  simp [Button.read, Timer.elapsed_time, Timer.reset, hstate, hel]

/-- Witness of C2: the button is down, the timer shows 31 ms and the input is
released. -/
theorem read_falling_edge_witness :
    ((Button.mk ⟨5, PinMode.PullDown⟩ true ⟨31000⟩).read false).1 = false ∧
      ((Button.mk ⟨5, PinMode.PullDown⟩ true ⟨31000⟩).read false).2.state = false ∧
      ((Button.mk ⟨5, PinMode.PullDown⟩ true ⟨31000⟩).read false).2.tim.elapsed_time = 0 ∧
      ((Button.mk ⟨5, PinMode.PullDown⟩ true ⟨31000⟩).read false).2.in_
        = (Button.mk ⟨5, PinMode.PullDown⟩ true ⟨31000⟩).in_ :=
  read_falling_edge (Button.mk ⟨5, PinMode.PullDown⟩ true ⟨31000⟩) false rfl rfl (by decide)

/-- C3: a poll of `read()` in which the raw level already equals the debounced
state, or at most 30 ms have elapsed (30 included), returns false and leaves
the debounced state and the timer unchanged. -/
theorem read_no_edge (b : Button) (raw : Bool)
    (h : raw = b.state ∨ b.elapsed_ms ≤ 30) :
    (b.read raw).1 = false ∧ (b.read raw).2.state = b.state ∧
      (b.read raw).2.tim = b.tim ∧ (b.read raw).2 = b := by
  rw [read_idle b raw h]
  exact ⟨rfl, rfl, rfl, rfl⟩

/-- Witness of C3: exactly 30 ms on the timer, input asserted, state up. -/
theorem read_no_edge_witness :
    (Button.mk ⟨5, PinMode.PullDown⟩ false ⟨30999⟩).elapsed_ms = 30 ∧
      ((Button.mk ⟨5, PinMode.PullDown⟩ false ⟨30999⟩).read true).1 = false ∧
      ((Button.mk ⟨5, PinMode.PullDown⟩ false ⟨30999⟩).read true).2.state = false ∧
      ((Button.mk ⟨5, PinMode.PullDown⟩ false ⟨30999⟩).read true).2.tim = ⟨30999⟩ ∧
      ((Button.mk ⟨5, PinMode.PullDown⟩ false ⟨30999⟩).read true).2
        = Button.mk ⟨5, PinMode.PullDown⟩ false ⟨30999⟩ :=
  ⟨by decide,
    read_no_edge (Button.mk ⟨5, PinMode.PullDown⟩ false ⟨30999⟩) true (Or.inr (by decide))⟩

/-! ## Sequences of `read()` polls -/

theorem read_true_cond (b : Button) (raw : Bool) (h : (b.read raw).1 = true) :
    raw = true ∧ b.state = false ∧ b.elapsed_ms > 30 := by
  rw [read_fst] at h
  simpa [and_assoc] using h

theorem read_true_post (b : Button) (raw : Bool) (h : (b.read raw).1 = true) :
    (b.read raw).2.state = true ∧ (b.read raw).2.tim.us = 0 := by
  obtain ⟨h1, h2, h3⟩ := read_true_cond b raw h
  rw [read_state, read_tim_us]
  simp [h1, h2, h3]

theorem stays_down (b : Button) (p : ℕ → Poll) (i : ℕ)
    (hi : (after b (reads p) (i + 1)).state = true) :
    ∀ d, (∀ k, i < k → k < i + 1 + d → ¬ acceptsFalling b p k) →
      (after b (reads p) (i + 1 + d)).state = true := by
  intro d
  induction d with
  | zero => intro _; exact hi
  | succ d ih =>
    intro h
    have hs : (atCall b (reads p) (i + 1 + d)).state = true :=
      ih (fun k h1 h2 => h k h1 (by omega))
    have hk := h (i + 1 + d) (by omega) (by omega)
    rw [show i + 1 + (d + 1) = (i + 1 + d) + 1 by omega, after_succ_reads, read_state]
    unfold acceptsFalling at hk
    split
    · next hc =>
      exfalso
      apply hk
      simp only [Bool.and_eq_true, decide_eq_true_eq, hs] at hc
      refine ⟨?_, hs, hc.1⟩
      cases hr : (p (i + 1 + d)).raw
      · rfl
      · rw [hr] at hc; simp at hc
    · exact hs

theorem acceptsFalling_post (b : Button) (p : ℕ → Poll) (k : ℕ)
    (h : acceptsFalling b p k) : (after b (reads p) (k + 1)).state = false := by
  obtain ⟨h1, h2, h3⟩ := h
  rw [after_succ_reads, read_state]
  simp [h1, h2, h3]

/-- C4: in a sequence of `read()` polls, within a run of consecutive polls
during which the raw input stays asserted at most one poll returns true, and
between any two polls that return true there is a poll that accepted a falling
edge (raw not asserted, state down, more than 30 ms elapsed) and left the
state up again. -/
theorem read_once_per_press (b : Button) (p : ℕ → Poll) :
    (∀ i j, i < j → (∀ k, i ≤ k → k ≤ j → (p k).raw = true) →
        ¬ (ret b (reads p) i = Ret.bool true ∧ ret b (reads p) j = Ret.bool true)) ∧
      (∀ i j, i < j → ret b (reads p) i = Ret.bool true →
        ret b (reads p) j = Ret.bool true →
        ∃ k, i < k ∧ k < j ∧ acceptsFalling b p k ∧
          (after b (reads p) (k + 1)).state = false) := by
  have key : ∀ i j, i < j → ret b (reads p) i = Ret.bool true →
      ret b (reads p) j = Ret.bool true →
      ∃ k, i < k ∧ k < j ∧ acceptsFalling b p k ∧
        (after b (reads p) (k + 1)).state = false := by
    intro i j hij hi hj
    by_contra hne
    push_neg at hne
    rw [ret_reads, Ret.bool.injEq] at hi hj
    have hup : (after b (reads p) (i + 1)).state = true := by
      rw [after_succ_reads]; exact (read_true_post _ _ hi).1
    have hno : ∀ k, i < k → k < i + 1 + (j - i - 1) → ¬ acceptsFalling b p k := by
      intro k h1 h2 hacc
      exact hne k h1 (by omega) hacc (acceptsFalling_post b p k hacc)
    have hdown := stays_down b p i hup (j - i - 1) hno
    rw [show i + 1 + (j - i - 1) = j by omega] at hdown
    have hj2 := (read_true_cond _ _ hj).2.1
    rw [show (atCall b (reads p) j).state = (after b (reads p) j).state from rfl, hdown] at hj2
    exact Bool.noConfusion hj2
  refine ⟨?_, key⟩
  rintro i j hij hrun ⟨hi, hj⟩
  obtain ⟨k, h1, h2, hacc, _⟩ := key i j hij hi hj
  have := hrun k (by omega) (by omega)
  rw [hacc.1] at this
  exact Bool.noConfusion this

/-! ## Interleaved calls -/

theorem atCall_tim_le (b : Button) (ev : ℕ → Event) (i : ℕ) :
    ∀ d, (atCall b ev (i + 1 + d)).tim.us + callTime ev i
      ≤ (after b ev (i + 1)).tim.us + callTime ev (i + 1 + d) := by
  intro d
  induction d with
  | zero =>
    show (after b ev (i + 1)).tim.us + (ev (i + 1)).dt + callTime ev i
      ≤ (after b ev (i + 1)).tim.us + (callTime ev i + (ev (i + 1)).dt)
    omega
  | succ d ih =>
    have hstep : (after b ev (i + 1 + d + 1)).tim.us ≤ (atCall b ev (i + 1 + d)).tim.us := by
      rw [after_succ]; exact call_tim_us_le _ _ _
    have h1 : (atCall b ev (i + 1 + d + 1)).tim.us
        = (after b ev (i + 1 + d + 1)).tim.us + (ev (i + 1 + d + 1)).dt := rfl
    have h2 : callTime ev (i + 1 + d + 1) = callTime ev (i + 1 + d) + (ev (i + 1 + d + 1)).dt :=
      rfl
    rw [show i + 1 + (d + 1) = i + 1 + d + 1 by omega, h1, h2]
    omega

/-- C5: in any interleaving of `read()`, `pressedTime()`, `mode()` and
`is_connected()` calls on one button, two `read()` calls that return true are
not less than 30 ms (30000 microseconds) apart. -/
theorem read_true_spacing (b : Button) (ev : ℕ → Event) (i j : ℕ) (hij : i < j)
    (hi : (ev i).call = Call.read ∧ ret b ev i = Ret.bool true)
    (hj : (ev j).call = Call.read ∧ ret b ev j = Ret.bool true) :
    30000 ≤ callTime ev j - callTime ev i := by
  obtain ⟨hci, hri⟩ := hi
  obtain ⟨hcj, hrj⟩ := hj
  unfold ret at hri hrj
  rw [hci] at hri
  rw [hcj] at hrj
  simp only [Button.call, Ret.bool.injEq] at hri hrj
  have h0 : (after b ev (i + 1)).tim.us = 0 := by
    rw [after_succ, hci]
    exact (read_true_post _ _ hri).2
  have h31 : 31000 ≤ (atCall b ev j).tim.us :=
    (elapsed_ms_gt_iff _).mp (read_true_cond _ _ hrj).2.2
  have hle := atCall_tim_le b ev i (j - i - 1)
  rw [show i + 1 + (j - i - 1) = j by omega, h0] at hle
  omega

/-- Witness of C5: a `read()` reports a press at 40 ms, a `pressedTime()` call
absorbs the release 1 ms later, and the `read()` 31 ms after that reports the
next press: the two true results are 32 ms apart. -/
theorem read_true_spacing_witness :
    (ret (Button.new 5 PinMode.PullDown) interleaved 0 = Ret.bool true ∧
      ret (Button.new 5 PinMode.PullDown) interleaved 2 = Ret.bool true) ∧
      30000 ≤ callTime interleaved 2 - callTime interleaved 0 :=
  ⟨⟨by decide, by decide⟩,
    read_true_spacing (Button.new 5 PinMode.PullDown) interleaved 0 2 (by decide)
      ⟨rfl, by decide⟩ ⟨rfl, by decide⟩⟩

/-! ## Bounces -/

theorem advance_advance (b : Button) (a c : ℕ) :
    (b.advance a).advance c = b.advance (a + c) := by
  simp [Button.advance, Timer.advance, Nat.add_assoc]

theorem callTime_mono_succ (ev : ℕ → Event) (n : ℕ) :
    callTime ev n ≤ callTime ev (n + 1) := by
  show callTime ev n ≤ callTime ev n + (ev (n + 1)).dt
  omega

theorem milliseconds_count_mono {a c : ℕ} (h : a ≤ c) :
    milliseconds_count a ≤ milliseconds_count c := by
  unfold milliseconds_count
  exact Int.ofNat_le.mpr (Nat.div_le_div_right h)

theorem reads_within_lockout (b : Button) (p : ℕ → Poll) :
    ∀ k, milliseconds_count (b.tim.elapsed_time + callTime (reads p) k) ≤ 30 →
      ret b (reads p) k = Ret.bool false ∧
        after b (reads p) (k + 1) = b.advance (callTime (reads p) k) := by
  intro k
  induction k with
  | zero =>
    intro h
    have hr : (atCall b (reads p) 0).read (p 0).raw = (false, atCall b (reads p) 0) :=
      read_idle _ _ (Or.inr h)
    rw [ret_reads, after_succ_reads, hr]
    exact ⟨rfl, rfl⟩
  | succ k ih =>
    intro h
    have hk : milliseconds_count (b.tim.elapsed_time + callTime (reads p) k) ≤ 30 :=
      le_trans (milliseconds_count_mono
        (Nat.add_le_add_left (callTime_mono_succ (reads p) k) _)) h
    have hat : atCall b (reads p) (k + 1) = b.advance (callTime (reads p) (k + 1)) := by
      unfold atCall
      rw [(ih hk).2, advance_advance]
      rfl
    have hr : (atCall b (reads p) (k + 1)).read (p (k + 1)).raw
        = (false, atCall b (reads p) (k + 1)) := by
      apply read_idle
      right
      rw [hat]
      exact h
    rw [ret_reads, after_succ_reads, hr]
    exact ⟨rfl, hat⟩

/-- C6, as stated, fails: a fresh button is polled every 5 ms; the input is low
at 40 ms, high at 45 ms and 50 ms and low again at 55 ms, so it was asserted
for less than 15 ms. The poll at 45 ms returns true and the debounced state,
false at the start, is true after the four polls. -/
theorem read_bounce_reported :
    ((bounce 0).raw = false ∧ (bounce 1).raw = true ∧ (bounce 2).raw = true ∧
        (bounce 3).raw = false) ∧
      callTime (reads bounce) 3 - callTime (reads bounce) 0 < 30000 ∧
      ret (Button.new 5 PinMode.PullDown) (reads bounce) 1 = Ret.bool true ∧
      (Button.new 5 PinMode.PullDown).state = false ∧
      (after (Button.new 5 PinMode.PullDown) (reads bounce) 4).state = true := by
  decide

/-- C6, amended: in a sequence of `read()` polls that all take place while at
most 30 ms have elapsed since the last timer reset, whatever the raw input
does (asserted and back to not asserted, any bounce), `read()` returns false on
every poll, the debounced state does not change and the timer is not reset. -/
theorem read_bounce_rejected (b : Button) (p : ℕ → Poll) (n : ℕ)
    (h : milliseconds_count (b.tim.elapsed_time + callTime (reads p) n) ≤ 30) :
    ∀ k, k ≤ n →
      ret b (reads p) k = Ret.bool false ∧
        (after b (reads p) (k + 1)).state = b.state ∧
        after b (reads p) (k + 1) = b.advance (callTime (reads p) k) := by
  intro k hk
  have hmono : callTime (reads p) k ≤ callTime (reads p) n := by
    induction n with
    | zero => rw [Nat.le_zero.mp hk]
    | succ n ih =>
      rcases Nat.lt_or_ge k (n + 1) with hlt | hge
      · have hn : milliseconds_count (b.tim.elapsed_time + callTime (reads p) n) ≤ 30 :=
          le_trans (milliseconds_count_mono
            (Nat.add_le_add_left (callTime_mono_succ (reads p) n) _)) h
        exact le_trans (ih hn (by omega)) (callTime_mono_succ (reads p) n)
      · rw [show k = n + 1 by omega]
  have hk30 : milliseconds_count (b.tim.elapsed_time + callTime (reads p) k) ≤ 30 :=
    le_trans (milliseconds_count_mono (Nat.add_le_add_left hmono _)) h
  obtain ⟨h1, h2⟩ := reads_within_lockout b p k hk30
  exact ⟨h1, by rw [h2]; rfl, h2⟩

/-- Witness of C6, amended: a fresh button polled at 5, 10 and 15 ms sees the
input high, high, low; every poll returns false and the state stays up. -/
theorem read_bounce_rejected_witness :
    milliseconds_count
        ((Button.new 5 PinMode.PullDown).tim.elapsed_time + callTime (reads earlyBounce) 2)
        ≤ 30 ∧
      ∀ k, k ≤ 2 →
        ret (Button.new 5 PinMode.PullDown) (reads earlyBounce) k = Ret.bool false ∧
          (after (Button.new 5 PinMode.PullDown) (reads earlyBounce) (k + 1)).state
            = (Button.new 5 PinMode.PullDown).state ∧
          after (Button.new 5 PinMode.PullDown) (reads earlyBounce) (k + 1)
            = (Button.new 5 PinMode.PullDown).advance (callTime (reads earlyBounce) k) :=
  ⟨by decide, read_bounce_rejected (Button.new 5 PinMode.PullDown) earlyBounce 2 (by decide)⟩

/-! ## The 50 ms press -/

theorem pressScenario_idle (pin : PinName) (mode : PinMode) (n1 : ℕ) :
    ∀ k, k ≤ n1 + (6 - n1) →
      after (Button.new pin mode) (reads (pressScenario n1)) k
        = (Button.new pin mode).advance (5000 * k) := by
  intro k
  induction k with
  | zero => intro _; rfl
  | succ k ih =>
    intro hk
    have hat : atCall (Button.new pin mode) (reads (pressScenario n1)) k
        = (Button.new pin mode).advance (5000 * (k + 1)) := by
      unfold atCall
      rw [ih (by omega), advance_advance]
      rfl
    have hr : (atCall (Button.new pin mode) (reads (pressScenario n1)) k).read
        (pressScenario n1 k).raw
        = (false, atCall (Button.new pin mode) (reads (pressScenario n1)) k) := by
      apply read_idle
      rw [hat]
      rcases Nat.lt_or_ge k n1 with hlt | hge
      · left
        have : ¬ (n1 ≤ k ∧ k < n1 + 10) := by omega
        simp [pressScenario, this, Button.advance, Button.new]
      · right
        have h30 : ¬ (30 < (((Button.new pin mode).advance (5000 * (k + 1))).elapsed_ms)) := by
          rw [gt_iff_lt.symm, elapsed_ms_gt_iff]
          simp only [Button.advance, Timer.advance, Button.new]
          omega
        exact not_lt.mp h30
    rw [after_succ_reads, hr, hat]

theorem pressScenario_accept (pin : PinName) (mode : PinMode) (n1 : ℕ) :
    ret (Button.new pin mode) (reads (pressScenario n1)) (n1 + (6 - n1))
      = Ret.bool true := by
  have hat : atCall (Button.new pin mode) (reads (pressScenario n1)) (n1 + (6 - n1))
      = (Button.new pin mode).advance (5000 * (n1 + (6 - n1) + 1)) := by
    unfold atCall
    rw [pressScenario_idle pin mode n1 _ (le_refl _), advance_advance]
    rfl
  have hraw : (pressScenario n1 (n1 + (6 - n1))).raw = true :=
    decide_eq_true (by omega)
  have h30 : (atCall (Button.new pin mode) (reads (pressScenario n1))
      (n1 + (6 - n1))).elapsed_ms > 30 := by
    rw [elapsed_ms_gt_iff, hat]
    simp only [Button.advance, Timer.advance, Button.new]
    omega
  have hst : (atCall (Button.new pin mode) (reads (pressScenario n1))
      (n1 + (6 - n1))).state = false := by
    rw [hat]; rfl
  rw [ret_reads, read_fst, hraw, hst, decide_eq_true h30]
  rfl

theorem pressScenario_ret (pin : PinName) (mode : PinMode) (n1 : ℕ) (k : ℕ) :
    ret (Button.new pin mode) (reads (pressScenario n1)) k
      = Ret.bool (decide (k = n1 + (6 - n1))) := by
  rcases Nat.lt_trichotomy k (n1 + (6 - n1)) with hlt | heq | hgt
  · -- before the accepted poll: nothing has happened yet
    have hat : atCall (Button.new pin mode) (reads (pressScenario n1)) k
        = (Button.new pin mode).advance (5000 * (k + 1)) := by
      unfold atCall
      rw [pressScenario_idle pin mode n1 k (by omega), advance_advance]
      rfl
    have hne : ¬ (k = n1 + (6 - n1)) := by omega
    rw [ret_reads, read_fst, decide_eq_false hne]
    rcases Nat.lt_or_ge k n1 with hlow | hhigh
    · have hraw : (pressScenario n1 k).raw = false := decide_eq_false (by omega)
      rw [hraw]
      rfl
    · have h30 : ¬ ((atCall (Button.new pin mode) (reads (pressScenario n1)) k).elapsed_ms
          > 30) := by
        rw [elapsed_ms_gt_iff, hat]
        simp only [Button.advance, Timer.advance, Button.new]
        omega
      rw [decide_eq_false h30, Bool.and_false]
  · -- the accepted poll
    rw [heq, pressScenario_accept, decide_eq_true rfl]
  · -- after the accepted poll
    have hne : ¬ (k = n1 + (6 - n1)) := by omega
    rw [ret_reads, read_fst, decide_eq_false hne]
    rcases Nat.lt_or_ge k (n1 + 10) with hhigh | hlow
    · have hacc := pressScenario_accept pin mode n1
      have hup : (after (Button.new pin mode) (reads (pressScenario n1))
          (n1 + (6 - n1) + 1)).state = true := by
        rw [ret_reads, Ret.bool.injEq] at hacc
        rw [after_succ_reads]
        exact (read_true_post _ _ hacc).1
      have hdown := stays_down (Button.new pin mode) (pressScenario n1) (n1 + (6 - n1)) hup
        (k - (n1 + (6 - n1)) - 1) (by
          intro j h1 h2 hf
          have hj : (pressScenario n1 j).raw = true := decide_eq_true (by omega)
          have := hf.1
          rw [hj] at this
          exact Bool.noConfusion this)
      rw [show n1 + (6 - n1) + 1 + (k - (n1 + (6 - n1)) - 1) = k by omega] at hdown
      have hst : (atCall (Button.new pin mode) (reads (pressScenario n1)) k).state = true :=
        hdown
      rw [hst]
      simp
    · have hraw : (pressScenario n1 k).raw = false := decide_eq_false (by omega)
      rw [hraw]
      rfl

/-- C7: a fresh button is polled with `read()` every 5 ms while the raw input
is low for `n1` polls, asserted for 50 ms (the next 10 polls), then low for
ever: exactly one poll returns true, that poll lies in the period in which the
input is asserted, and every other poll returns false. -/
theorem read_press_50ms (pin : PinName) (mode : PinMode) (n1 : ℕ) :
    ∃ i, (n1 ≤ i ∧ i < n1 + 10) ∧ (pressScenario n1 i).raw = true ∧
      ∀ k, ret (Button.new pin mode) (reads (pressScenario n1)) k
        = Ret.bool (decide (k = i)) := by
  exact ⟨n1 + (6 - n1), by omega, decide_eq_true (by omega), pressScenario_ret pin mode n1⟩

/-! ## Sequences of `pressedTime()` polls -/

theorem pressedTimes_inv (pin : PinName) (mode : PinMode) (p : ℕ → Poll) :
    ∀ k, (after (Button.new pin mode) (pressedTimes p) k).state
          = (decide (0 < k) && (p (k - 1)).raw) ∧
        ((after (Button.new pin mode) (pressedTimes p) k).state = true →
          ∃ m, m < k ∧ (m = 0 ∨ (p (m - 1)).raw = false) ∧
            (∀ i, m ≤ i → i < k → (p i).raw = true) ∧
            (atCall (Button.new pin mode) (pressedTimes p) k).tim.us
                + callTime (pressedTimes p) m
              = callTime (pressedTimes p) k) := by
  intro k
  induction k with
  | zero => exact ⟨rfl, fun h => Bool.noConfusion (show false = true from h)⟩
  | succ k ih =>
    obtain ⟨ih1, ih2⟩ := ih
    have hst : (after (Button.new pin mode) (pressedTimes p) (k + 1)).state = (p k).raw := by
      rw [after_succ_pressedTimes, pressedTime_state]
    have hus : (atCall (Button.new pin mode) (pressedTimes p) (k + 1)).tim.us
        = (after (Button.new pin mode) (pressedTimes p) (k + 1)).tim.us
            + (p (k + 1)).dt := rfl
    have htime : callTime (pressedTimes p) (k + 1)
        = callTime (pressedTimes p) k + (p (k + 1)).dt := rfl
    refine ⟨by rw [hst]; simp, ?_⟩
    intro hup
    rw [hst] at hup
    have hafter : (after (Button.new pin mode) (pressedTimes p) (k + 1)).tim.us
        = (if (p k).raw != (atCall (Button.new pin mode) (pressedTimes p) k).state then 0
            else (atCall (Button.new pin mode) (pressedTimes p) k).tim.us) := by
      rw [after_succ_pressedTimes, pressedTime_tim_us]
    have hsk : (atCall (Button.new pin mode) (pressedTimes p) k).state
        = (after (Button.new pin mode) (pressedTimes p) k).state := rfl
    cases hprev : (after (Button.new pin mode) (pressedTimes p) k).state
    · -- the poll marks the state down
      refine ⟨k, Nat.lt_succ_self k, ?_, ?_, ?_⟩
      · rw [hprev] at ih1
        rcases Nat.eq_zero_or_pos k with h0 | hpos
        · exact Or.inl h0
        · right
          simpa [hpos] using ih1.symm
      · intro i h1 h2
        rw [show i = k by omega]
        exact hup
      · rw [hus, hafter, hsk, hprev, hup, htime]
        simp
        omega
    · -- the state is already down
      obtain ⟨m, hm, hstart, hrun, htm⟩ := ih2 hprev
      refine ⟨m, by omega, hstart, ?_, ?_⟩
      · intro i h1 h2
        rcases Nat.lt_or_ge i k with hlt | hge
        · exact hrun i h1 hlt
        · rw [show i = k by omega]
          exact hup
      · rw [hus, hafter, hsk, hprev, hup, htime]
        simp
        omega

/-- C8, as stated, fails: a fresh button is polled with `pressedTime()`; the
first poll sees the input asserted and marks the state down, the second poll,
500 microseconds later, sees it released and marks the state up, and both
return 0, as does the third: a full press-then-release cycle without a
non-zero value. -/
theorem pressedTime_short_press_zero :
    ((shortPress 0).raw = true ∧ (shortPress 1).raw = false ∧ (shortPress 2).raw = false) ∧
      (after (Button.new 5 PinMode.PullDown) (pressedTimes shortPress) 1).state = true ∧
      (after (Button.new 5 PinMode.PullDown) (pressedTimes shortPress) 2).state = false ∧
      callTime (pressedTimes shortPress) 1 - callTime (pressedTimes shortPress) 0 = 500 ∧
      ret (Button.new 5 PinMode.PullDown) (pressedTimes shortPress) 0 = Ret.long 0 ∧
      ret (Button.new 5 PinMode.PullDown) (pressedTimes shortPress) 1 = Ret.long 0 ∧
      ret (Button.new 5 PinMode.PullDown) (pressedTimes shortPress) 2 = Ret.long 0 := by
  decide

/-- C8, amended: in a sequence of `pressedTime()` polls on a fresh button, the
poll `k` that first observes the raw input released after a run of polls that
saw it asserted returns the elapsed time, in whole milliseconds, between the
poll `m` that marked the state down (the first poll of that run) and poll `k`;
that value is non-zero exactly when at least one millisecond lies between the
two polls. Every other poll returns 0. -/
theorem pressedTime_cycle (pin : PinName) (mode : PinMode) (p : ℕ → Poll) (k : ℕ) :
    (((p k).raw = false ∧ 0 < k ∧ (p (k - 1)).raw = true) →
        ∃ m, m < k ∧ (m = 0 ∨ (p (m - 1)).raw = false) ∧
          (∀ i, m ≤ i → i < k → (p i).raw = true) ∧
          ret (Button.new pin mode) (pressedTimes p) k
            = Ret.long (milliseconds_count
                (callTime (pressedTimes p) k - callTime (pressedTimes p) m)) ∧
          (ret (Button.new pin mode) (pressedTimes p) k ≠ Ret.long 0 ↔
            1000 ≤ callTime (pressedTimes p) k - callTime (pressedTimes p) m)) ∧
      (¬ ((p k).raw = false ∧ 0 < k ∧ (p (k - 1)).raw = true) →
        ret (Button.new pin mode) (pressedTimes p) k = Ret.long 0) := by
  obtain ⟨h1, h2⟩ := pressedTimes_inv pin mode p k
  have hsk : (atCall (Button.new pin mode) (pressedTimes p) k).state
      = (after (Button.new pin mode) (pressedTimes p) k).state := rfl
  constructor
  · rintro ⟨hraw, hpos, hprev⟩
    have hup : (after (Button.new pin mode) (pressedTimes p) k).state = true := by
      rw [h1, hprev]; simp [hpos]
    obtain ⟨m, hm, hstart, hrun, htm⟩ := h2 hup
    have hval : ret (Button.new pin mode) (pressedTimes p) k
        = Ret.long (milliseconds_count
            (callTime (pressedTimes p) k - callTime (pressedTimes p) m)) := by
      rw [ret_pressedTimes, pressedTime_fst, hsk, hup, hraw]
      have : callTime (pressedTimes p) k - callTime (pressedTimes p) m
          = (atCall (Button.new pin mode) (pressedTimes p) k).tim.us := by omega
      rw [this]
      rfl
    refine ⟨m, hm, hstart, hrun, hval, ?_⟩
    rw [hval, Ne, Ret.long.injEq]
    unfold milliseconds_count
    omega
  · intro hno
    rw [ret_pressedTimes, pressedTime_fst, hsk, h1]
    cases hraw : (p k).raw
    · rcases Nat.eq_zero_or_pos k with h0 | hpos
      · simp [h0]
      · have hprev : (p (k - 1)).raw = false := by
          cases hp : (p (k - 1)).raw
          · rfl
          · exact absurd ⟨hraw, hpos, hp⟩ hno
        simp [hprev]
    · simp

/-- The example of C8: a press held 200 ms and polled every 50 ms yields
zeros, then one value of 200, then zeros. -/
theorem pressedTime_held_200ms :
    ret (Button.new 5 PinMode.PullDown) (pressedTimes heldPress) 0 = Ret.long 0 ∧
      ret (Button.new 5 PinMode.PullDown) (pressedTimes heldPress) 1 = Ret.long 0 ∧
      ret (Button.new 5 PinMode.PullDown) (pressedTimes heldPress) 4 = Ret.long 0 ∧
      ret (Button.new 5 PinMode.PullDown) (pressedTimes heldPress) 5 = Ret.long 200 ∧
      ret (Button.new 5 PinMode.PullDown) (pressedTimes heldPress) 6 = Ret.long 0 := by
  decide

/-! ## Single calls of `pressedTime` -/

/-- C9: a poll of `pressedTime()` with the raw input not asserted and the
debounced state true returns the elapsed time in whole milliseconds since the
last timer reset, read before the reset, sets the debounced state to false and
resets the timer to zero; no 30 ms threshold is applied. -/
theorem pressedTime_release (b : Button) (raw : Bool)
    (hraw : raw = false) (hstate : b.state = true) :
    (b.pressedTime raw).1 = milliseconds_count b.tim.elapsed_time ∧
      (b.pressedTime raw).2.state = false ∧
      (b.pressedTime raw).2.tim.elapsed_time = 0 ∧
      (b.pressedTime raw).2.in_ = b.in_ := by
  subst hraw
  simp [Button.pressedTime, Timer.elapsed_time, Timer.reset, hstate]

/-- Witness of C9: the state is down and the release is observed 5 ms after the
last reset, below the 30 ms of `read()`: the call returns 5. -/
theorem pressedTime_release_witness :
    ((Button.mk ⟨5, PinMode.PullDown⟩ true ⟨5400⟩).pressedTime false).1 = 5 ∧
      ((Button.mk ⟨5, PinMode.PullDown⟩ true ⟨5400⟩).pressedTime false).2.state = false ∧
      ((Button.mk ⟨5, PinMode.PullDown⟩ true ⟨5400⟩).pressedTime false).2.tim.elapsed_time
        = 0 ∧
      ((Button.mk ⟨5, PinMode.PullDown⟩ true ⟨5400⟩).pressedTime false).2.in_
        = (Button.mk ⟨5, PinMode.PullDown⟩ true ⟨5400⟩).in_ :=
  pressedTime_release (Button.mk ⟨5, PinMode.PullDown⟩ true ⟨5400⟩) false rfl rfl

/-- C10: a poll of `pressedTime()` with the raw input asserted and the
debounced state false returns 0, sets the debounced state to true and resets
the timer to zero, whatever the elapsed time is. -/
theorem pressedTime_mark (b : Button) (raw : Bool)
    (hraw : raw = true) (hstate : b.state = false) :
    (b.pressedTime raw).1 = 0 ∧
      (b.pressedTime raw).2.state = true ∧
      (b.pressedTime raw).2.tim.elapsed_time = 0 ∧
      (b.pressedTime raw).2.in_ = b.in_ := by
  subst hraw
  simp [Button.pressedTime, Timer.elapsed_time, Timer.reset, hstate]

/-- Witness of C10: the state is up, the timer shows 2 ms, the input is
asserted. -/
theorem pressedTime_mark_witness :
    ((Button.mk ⟨5, PinMode.PullDown⟩ false ⟨2000⟩).pressedTime true).1 = 0 ∧
      ((Button.mk ⟨5, PinMode.PullDown⟩ false ⟨2000⟩).pressedTime true).2.state = true ∧
      ((Button.mk ⟨5, PinMode.PullDown⟩ false ⟨2000⟩).pressedTime true).2.tim.elapsed_time
        = 0 ∧
      ((Button.mk ⟨5, PinMode.PullDown⟩ false ⟨2000⟩).pressedTime true).2.in_
        = (Button.mk ⟨5, PinMode.PullDown⟩ false ⟨2000⟩).in_ :=
  pressedTime_mark (Button.mk ⟨5, PinMode.PullDown⟩ false ⟨2000⟩) true rfl rfl

/-- C11: a poll of `pressedTime()` in which the raw level already equals the
debounced state (asserted while down, or released while up) returns 0 and
leaves the debounced state and the timer unchanged. -/
theorem pressedTime_no_edge (b : Button) (raw : Bool) (h : raw = b.state) :
    (b.pressedTime raw).1 = 0 ∧ (b.pressedTime raw).2.state = b.state ∧
      (b.pressedTime raw).2.tim = b.tim ∧ (b.pressedTime raw).2 = b := by
  subst h
  unfold Button.pressedTime
  cases hs : b.state <;> simp [hs]

/-- Witness of C11: the input is asserted while the state is down, 120 ms after
the last reset. -/
theorem pressedTime_no_edge_witness :
    ((Button.mk ⟨5, PinMode.PullDown⟩ true ⟨120000⟩).pressedTime true).1 = 0 ∧
      ((Button.mk ⟨5, PinMode.PullDown⟩ true ⟨120000⟩).pressedTime true).2.state = true ∧
      ((Button.mk ⟨5, PinMode.PullDown⟩ true ⟨120000⟩).pressedTime true).2.tim = ⟨120000⟩ ∧
      ((Button.mk ⟨5, PinMode.PullDown⟩ true ⟨120000⟩).pressedTime true).2
        = Button.mk ⟨5, PinMode.PullDown⟩ true ⟨120000⟩ :=
  pressedTime_no_edge (Button.mk ⟨5, PinMode.PullDown⟩ true ⟨120000⟩) true rfl

/-! ## Timer resets -/

/-- C12: a call of `read()` or of `pressedTime()` executes `tim.reset()` if and
only if it changes the debounced state, and a call that leaves the debounced
state unchanged leaves the timer unchanged. The logged methods return what
`read` and `pressedTime` return. -/
theorem reset_iff_state_change (b : Button) (raw : Bool) :
    (((b.read_logged raw).1, (b.read_logged raw).2.1) = b.read raw ∧
        ((b.pressedTime_logged raw).1, (b.pressedTime_logged raw).2.1)
          = b.pressedTime raw) ∧
      ((b.read_logged raw).2.2 = true ↔ (b.read raw).2.state ≠ b.state) ∧
      ((b.pressedTime_logged raw).2.2 = true ↔ (b.pressedTime raw).2.state ≠ b.state) ∧
      ((b.read raw).2.state = b.state → (b.read raw).2.tim = b.tim) ∧
      ((b.pressedTime raw).2.state = b.state → (b.pressedTime raw).2.tim = b.tim) := by
  unfold Button.read_logged Button.pressedTime_logged Button.read Button.pressedTime
  cases raw <;> cases hs : b.state <;>
    by_cases h : milliseconds_count b.tim.elapsed_time > 30 <;> simp [h, hs]

/-! ## `is_connected` and `operator int` -/

/-- C13: `is_connected()` returns exactly the connectivity value reported by
the underlying digital input and leaves the debounced state and the timer (the
whole button) unchanged, also when it is called through the dispatcher in a
sequence of calls. -/
theorem is_connected_passthrough (b : Button) :
    b.is_connected.1 = b.in_.is_connected ∧ b.is_connected.2.state = b.state ∧
      b.is_connected.2.tim = b.tim ∧ b.is_connected.2 = b ∧
      ∀ raw, b.call Call.is_connected raw = (Ret.int b.in_.is_connected, b) :=
  ⟨rfl, rfl, rfl, rfl, fun _ => rfl⟩

/-- C14: the conversion `operator int` is equivalent to `read()`: it yields 1
exactly when `read()` returns true and 0 otherwise, and it leaves the same
debounced state and timer as `read()`. -/
theorem operator_int_eq_read (b : Button) (raw : Bool) :
    ((b.operator_int raw).1 = 1 ↔ (b.read raw).1 = true) ∧
      ((b.operator_int raw).1 = 0 ↔ (b.read raw).1 = false) ∧
      (b.operator_int raw).2 = (b.read raw).2 ∧
      (b.operator_int raw).2.state = (b.read raw).2.state ∧
      (b.operator_int raw).2.tim = (b.read raw).2.tim := by
  unfold Button.operator_int
  cases h : (b.read raw).1 <;> simp [h]

/-! ## Power-up -/

/-- C15: a freshly constructed button has debounced state false and a timer at
zero, and a `read()` poll made while at most 30 ms have elapsed since
construction returns false and leaves the state false, whatever the raw input
levels of this poll and of the polls before it are. -/
theorem read_after_construction (pin : PinName) (mode : PinMode) (p : ℕ → Poll) (k : ℕ)
    (h : milliseconds_count (callTime (reads p) k) ≤ 30) :
    (Button.new pin mode).state = false ∧
      (Button.new pin mode).tim.elapsed_time = 0 ∧
      ret (Button.new pin mode) (reads p) k = Ret.bool false ∧
      (after (Button.new pin mode) (reads p) (k + 1)).state = false := by
  have h0 : milliseconds_count
      ((Button.new pin mode).tim.elapsed_time + callTime (reads p) k) ≤ 30 := by
    have : (Button.new pin mode).tim.elapsed_time + callTime (reads p) k
        = callTime (reads p) k := Nat.zero_add _
    rw [this]
    exact h
  obtain ⟨h1, h2⟩ := reads_within_lockout (Button.new pin mode) p k h0
  refine ⟨rfl, rfl, h1, ?_⟩
  rw [h2]
  rfl

/-- Witness of C15: the button is held from power-up and polled every 10 ms;
the third poll, exactly 30 ms after construction, still returns false. -/
theorem read_after_construction_witness :
    milliseconds_count (callTime (reads heldAtPowerUp) 2) = 30 ∧
      (heldAtPowerUp 2).raw = true ∧
      ((Button.new 5 PinMode.PullDown).state = false ∧
        (Button.new 5 PinMode.PullDown).tim.elapsed_time = 0 ∧
        ret (Button.new 5 PinMode.PullDown) (reads heldAtPowerUp) 2 = Ret.bool false ∧
        (after (Button.new 5 PinMode.PullDown) (reads heldAtPowerUp) 3).state = false) :=
  ⟨by decide, rfl,
    read_after_construction 5 PinMode.PullDown heldAtPowerUp 2 (by decide)⟩

/-! ## `pressedTime` follows the raw level -/

/-- C16: after every call of `pressedTime()`, whatever the prior debounced
state and elapsed time, the debounced state equals the raw input level that
the call observed. -/
theorem pressedTime_tracks_raw (b : Button) (raw : Bool) :
    (b.pressedTime raw).2.state = raw :=
  pressedTime_state b raw

/-! ## Truncation to whole milliseconds -/

/-- C17: the elapsed time is truncated to whole milliseconds before it is
compared or returned. With the timer value in microseconds, `read()` accepts an
edge (changes the state) exactly when the raw level differs from the state and
at least 31000 microseconds have elapsed, so at 30999 or less it returns false
and changes nothing; and on release `pressedTime()` returns the number `r` with
`1000 * r ≤ elapsed_us < 1000 * r + 1000`, which is 0 when fewer than 1000
microseconds have elapsed. -/
theorem elapsed_truncated (b : Button) (raw : Bool) :
    ((b.read raw).2.state ≠ b.state ↔ (raw ≠ b.state ∧ 31000 ≤ b.tim.elapsed_time)) ∧
      ((b.read raw).1 = true → 31000 ≤ b.tim.elapsed_time) ∧
      (b.tim.elapsed_time ≤ 30999 → b.read raw = (false, b)) ∧
      (raw = false → b.state = true →
        1000 * (b.pressedTime raw).1 ≤ (b.tim.elapsed_time : ℤ) ∧
          (b.tim.elapsed_time : ℤ) < 1000 * (b.pressedTime raw).1 + 1000) ∧
      (raw = false → b.state = true → b.tim.elapsed_time < 1000 →
        (b.pressedTime raw).1 = 0) := by
  have hgt := elapsed_ms_gt_iff b
  have hus : b.tim.elapsed_time = b.tim.us := rfl
  refine ⟨?_, ?_, ?_, ?_, ?_⟩
  · rw [read_state, hus]
    by_cases h : b.elapsed_ms > 30
    · have h31 := hgt.mp h
      cases raw <;> cases hs : b.state <;> simp [h, h31]
    · have h31 : ¬ 31000 ≤ b.tim.us := fun hh => h (hgt.mpr hh)
      simp [h, h31]
  · intro h
    exact hgt.mp (read_true_cond b raw h).2.2
  · intro h
    apply read_idle
    right
    have : ¬ b.elapsed_ms > 30 := fun hh => by
      have := hgt.mp hh
      omega
    exact not_lt.mp this
  · intro hraw hstate
    rw [pressedTime_fst, hraw, hstate, hus]
    simp only [Bool.not_false, Bool.and_self, if_true, Button.elapsed_ms,
      milliseconds_count, Timer.elapsed_time]
    omega
  · intro hraw hstate hlt
    rw [pressedTime_fst, hraw, hstate]
    simp only [Bool.not_false, Bool.and_self, if_true, Button.elapsed_ms,
      milliseconds_count, Timer.elapsed_time]
    rw [hus] at hlt
    omega

/-- The boundary of C17 on concrete timers: 30999 microseconds are rejected and
31000 accepted by `read()`; `pressedTime()` returns 0 at 999 microseconds and 1
at 1999. -/
theorem elapsed_truncated_boundary :
    ((Button.mk ⟨5, PinMode.PullDown⟩ false ⟨30999⟩).read true).1 = false ∧
      ((Button.mk ⟨5, PinMode.PullDown⟩ false ⟨31000⟩).read true).1 = true ∧
      ((Button.mk ⟨5, PinMode.PullDown⟩ true ⟨999⟩).pressedTime false).1 = 0 ∧
      ((Button.mk ⟨5, PinMode.PullDown⟩ true ⟨1999⟩).pressedTime false).1 = 1 := by
  decide

end ButtonMbed
